import Mathlib

/-
Verification development for the fluxo core language
(`src/ast/var.rs`, `src/ast/ctx.rs`, `src/ast/exp.rs`, `src/err.rs`).

The data model and the operations are shallowly embedded: Rust enums become
inductive types, methods become Lean functions, `Result<T, E>` becomes
`Except E T`.  The mutually recursive, potentially non-terminating trio
`calculate_type` / `reduce_once` / `reduce` is embedded with an explicit
fuel parameter; a result of `none` means "fuel exhausted" and never stands
for a result the Rust code produces, while `some r` is exactly the
`Result` the Rust code returns.
-/

/-- A symbolic variable (Rust `Var(pub String)` in `var.rs`). -/
structure Var where
  name : String
deriving DecidableEq

/-- `Var::new` -/
def Var.new (val : String) : Var := ⟨val⟩

/-- Alias for the `Var` structure, used in signatures where a constructor
named `Var` of the surrounding namespace would shadow it. -/
abbrev VarName := Var

/-- A variable indexed against a parent binder (Rust `Idx(pub usize, pub Var)`).
`depth` is field `.0`, `var` is field `.1`. -/
structure Idx where
  depth : Nat
  var : Var
deriving DecidableEq

/-- `Idx::new`: depth-0 index anchored at `var`. -/
def Idx.new (var : Var) : Idx := ⟨0, var⟩

/-- `Idx::inc` -/
def Idx.inc (i : Idx) : Idx := ⟨i.depth + 1, i.var⟩

/-- `Idx::dec` (Rust `usize` subtraction; only ever called at depth ≥ 1). -/
def Idx.dec (i : Idx) : Idx := ⟨i.depth - 1, i.var⟩

/-- A variable occurrence: still-symbolic or resolved to an index
(Rust `enum VarIdx { Var(Var), Idx(Idx) }`). -/
inductive VarIdx where
  | Var : Var → VarIdx
  | Idx : Idx → VarIdx
deriving DecidableEq

/-- `VarIdx::get_var`: the underlying name of either kind of occurrence. -/
def VarIdx.get_var : VarIdx → VarName
  | VarIdx.Var var => var
  | VarIdx.Idx idx => idx.var

/-- Top-level expression (Rust `enum Exp` in `exp.rs`). -/
inductive Exp where
  | Var : VarIdx → Exp
  | Abs : Var → Exp → Exp → Exp
  | For : Var → Exp → Exp → Exp
  | App : Exp → Exp → Exp
  | TypeMeta : Exp
  | KindMeta : Exp
deriving DecidableEq

/-- Traversal flags of the pretty printer (Rust `struct Branch`). -/
structure Branch where
  ltree : Bool
  rtree : Bool
deriving DecidableEq

/-- `Branch::new` -/
def Branch.new : Branch := ⟨false, false⟩

/-- `Exp::parens`: wrap in parentheses when requested. -/
def parens (b : Bool) (s : String) : String :=
  if b then "(" ++ s ++ ")" else s

/-- Rendering of a variable occurrence (`Display` of `VarIdx`/`Idx`: both show
only the name; indexing is an implementation detail). -/
def VarIdx.render : VarIdx → String
  | VarIdx.Var var => var.name
  | VarIdx.Idx idx => idx.var.name

/-- `Exp::fmt` with its `fmt_binder`/`fmt_app` helpers inlined: the canonical
rendering driven by the two `Branch` flags. -/
def Exp.fmtB : Exp → Branch → String
  | Exp.Var varidx, _ => varidx.render
  | Exp.Abs var typ exp, flags =>
      parens flags.ltree
        ("λ" ++ var.name ++ " : " ++ typ.fmtB Branch.new ++ " . " ++ exp.fmtB Branch.new)
  | Exp.For var typ exp, flags =>
      parens flags.ltree
        ("Π" ++ var.name ++ " : " ++ typ.fmtB Branch.new ++ " . " ++ exp.fmtB Branch.new)
  | Exp.App fst snd, flags =>
      parens flags.rtree
        (fst.fmtB ⟨!flags.rtree, flags.rtree⟩ ++ " " ++ snd.fmtB ⟨flags.ltree, !flags.rtree⟩)
  | Exp.TypeMeta, _ => "*"
  | Exp.KindMeta, _ => "□"

/-- The `Display` impl for `Exp`: format with default flags. -/
def Exp.display (e : Exp) : String := e.fmtB Branch.new

/-- Rust `struct TypeCompatErr` (err.rs). -/
structure TypeCompatErr where
  exp : Exp
  typ : Exp
  acc : List Exp
  msg : String
deriving DecidableEq

/-- `TypeCompatErr::new` -/
def TypeCompatErr.new (exp typ : Exp) (acc : List Exp) : TypeCompatErr :=
  ⟨exp, typ, acc, ":type " ++ exp.display ++ " does not have the requisite form!"⟩

/-- Rust `struct TypeUndefErr`. -/
structure TypeUndefErr where
  exp : Exp
deriving DecidableEq

/-- `TypeUndefErr::new` -/
def TypeUndefErr.new (exp : Exp) : TypeUndefErr := ⟨exp⟩

/-- Rust `struct TypeUnknownErr`. -/
structure TypeUnknownErr where
  var : Var
deriving DecidableEq

/-- `TypeUnknownErr::new` -/
def TypeUnknownErr.new (var : Var) : TypeUnknownErr := ⟨var⟩

/-- Rust `struct TypeRedeclErr`. -/
structure TypeRedeclErr where
  var : Var
  typ : Exp
  upd : Exp
deriving DecidableEq

/-- `TypeRedeclErr::new` -/
def TypeRedeclErr.new (var : Var) (typ upd : Exp) : TypeRedeclErr :=
  ⟨var, typ, upd⟩

/-- Rust `enum TypingErr` (the `Generic` variant carries a free-form message). -/
inductive TypingErr where
  | Generic : String → TypingErr
  | TypeCompatErr : TypeCompatErr → TypingErr
  | TypeUndefErr : TypeUndefErr → TypingErr
  | TypeUnknownErr : TypeUnknownErr → TypingErr
  | TypeRedeclErr : TypeRedeclErr → TypingErr
deriving DecidableEq

/-- Fueled result: `none` = fuel exhausted (the Rust code would still be
running), `some r` = the Rust `Result<T, TypingErr>`. -/
def Res (α : Type) : Type := Option (Except TypingErr α)

instance {ε α : Type} [DecidableEq ε] [DecidableEq α] : DecidableEq (Except ε α) := by
  intro a b
  cases a <;> cases b
  case error.error x y =>
    exact if h : x = y then Decidable.isTrue (by rw [h]) else
      Decidable.isFalse (by intro hc; cases hc; exact h rfl)
  case error.ok x y => exact Decidable.isFalse (by intro hc; cases hc)
  case ok.error x y => exact Decidable.isFalse (by intro hc; cases hc)
  case ok.ok x y =>
    exact if h : x = y then Decidable.isTrue (by rw [h]) else
      Decidable.isFalse (by intro hc; cases hc; exact h rfl)

instance {α : Type} [DecidableEq α] : DecidableEq (Res α) := by
  unfold Res
  infer_instance

/-- Successful result (Rust `Ok`). -/
def Res.ok {α : Type} (a : α) : Res α := some (Except.ok a)

/-- Failed result (Rust `Err`). -/
def Res.throw {α : Type} (e : TypingErr) : Res α := some (Except.error e)

/-- The `?` operator: propagate fuel exhaustion and errors, continue on `Ok`. -/
def Res.bind {α β : Type} : Res α → (α → Res β) → Res β
  | none, _ => none
  | some (Except.error e), _ => some (Except.error e)
  | some (Except.ok a), f => f a

/-- `?` applied to a `Result<_, TypeUnknownErr>` (the `From` impl wraps the
error in `TypingErr::TypeUnknownErr`). -/
def Res.ofUnknown {α : Type} : Except TypeUnknownErr α → Res α
  | Except.ok a => Res.ok a
  | Except.error e => Res.throw (TypingErr.TypeUnknownErr e)

/-- `?` applied to a `Result<_, TypeRedeclErr>`. -/
def Res.ofRedecl {α : Type} : Except TypeRedeclErr α → Res α
  | Except.ok a => Res.ok a
  | Except.error e => Res.throw (TypingErr.TypeRedeclErr e)

/-- Typing context (Rust `struct Ctx { map: HashMap<Var, Exp> }`, ctx.rs),
embedded as an association list with at most one entry per variable. -/
structure Ctx where
  map : List (Var × Exp)
deriving DecidableEq

/-- `Ctx::new` -/
def Ctx.new : Ctx := ⟨[]⟩

/-- Association-list lookup backing the `HashMap` of `Ctx`. -/
def findVar : List (Var × Exp) → Var → Option Exp
  | [], _ => none
  | (v, t) :: rest, var => if v = var then some t else findVar rest var

/-- `HashMap::get`: first (and only) binding of `var`, if any. -/
def Ctx.find (ctx : Ctx) (var : Var) : Option Exp :=
  findVar ctx.map var

/-- `HashMap::insert`: bind `var` to `typ`, replacing any previous binding. -/
def Ctx.insert (ctx : Ctx) (var : Var) (typ : Exp) : Ctx :=
  ⟨(var, typ) :: ctx.map.filter (fun p => decide (p.1 ≠ var))⟩

/-- `Ctx::put`: reject a structurally different re-binding, insert otherwise. -/
def Ctx.put (ctx : Ctx) (var : Var) (typ : Exp) : Except TypeRedeclErr Ctx :=
  match ctx.find var with
  | some old =>
      if old = typ then Except.ok (ctx.insert var typ)
      else Except.error (TypeRedeclErr.new var old typ)
  | none => Except.ok (ctx.insert var typ)

/-- `Ctx::get` -/
def Ctx.get (ctx : Ctx) (var : Var) : Except TypeUnknownErr Exp :=
  match ctx.find var with
  | some typ => Except.ok typ
  | none => Except.error (TypeUnknownErr.new var)

/-- `Ctx::extend`: clone, `put` into the clone (the receiver is untouched;
in the pure embedding that clone is the returned value). -/
def Ctx.extend (ctx : Ctx) (var : Var) (typ : Exp) : Except TypeRedeclErr Ctx :=
  ctx.put var typ

/-- `Ctx::remove`: clone without `var`, or unknown-variable if absent. -/
def Ctx.remove (ctx : Ctx) (var : Var) : Except TypeUnknownErr Ctx :=
  match ctx.find var with
  | some _ => Except.ok ⟨ctx.map.filter (fun p => decide (p.1 ≠ var))⟩
  | none => Except.error (TypeUnknownErr.new var)

/-- The call `ctx.subtract(var)` in `exp.rs` (ctx.rs names it `remove`;
the spec records the alias: `remove` a.k.a. "subtract"). -/
def Ctx.subtract (ctx : Ctx) (var : Var) : Except TypeUnknownErr Ctx :=
  ctx.remove var

/-- `Exp::index`: convert matching free occurrences into de Bruijn indices.
The Rust method mutates in place; here it returns the rewritten tree. -/
def Exp.index : Exp → Idx → Exp
  | Exp.Var (VarIdx.Var var), idx =>
      if var = idx.var then Exp.Var (VarIdx.Idx idx) else Exp.Var (VarIdx.Var var)
  | Exp.Var (VarIdx.Idx i), _ => Exp.Var (VarIdx.Idx i)
  | Exp.Abs var typ exp, idx =>
      if var ≠ idx.var then Exp.Abs var typ (exp.index idx.inc) else Exp.Abs var typ exp
  | Exp.For var typ exp, idx =>
      if var ≠ idx.var then Exp.For var typ (exp.index idx.inc) else Exp.For var typ exp
  | Exp.App fst snd, idx => Exp.App (fst.index idx) (snd.index idx)
  | Exp.TypeMeta, _ => Exp.TypeMeta
  | Exp.KindMeta, _ => Exp.KindMeta

/-- `Exp::new_var` -/
def Exp.new_var (var : VarName) : Exp := Exp.Var (VarIdx.Var var)

/-- `Exp::new_abs`: index the body against the new binder at depth 0. -/
def Exp.new_abs (var : VarName) (typ exp : Exp) : Exp :=
  Exp.Abs var typ (exp.index (Idx.new var))

/-- `Exp::new_for` -/
def Exp.new_for (var : VarName) (typ exp : Exp) : Exp :=
  Exp.For var typ (exp.index (Idx.new var))

/-- `Exp::new_app` -/
def Exp.new_app (fst snd : Exp) : Exp := Exp.App fst snd

/-- `Exp::get_type_meta` -/
def Exp.get_type_meta : Exp := Exp.TypeMeta

/-- `Exp::get_kind_meta` -/
def Exp.get_kind_meta : Exp := Exp.KindMeta

/-- `Exp::subst`: replace occurrences of the index `loc` by `can`.
`Idx`'s `Ord` impl compares only the depth (`self.0.cmp(&other.0)`), so the
three branches below compare depths, never names. -/
def Exp.subst : Exp → Idx → Exp → Exp
  | Exp.Var (VarIdx.Var var), _, _ => Exp.Var (VarIdx.Var var)
  | Exp.Var (VarIdx.Idx idx), loc, can =>
      if idx.depth = loc.depth then can
      else if loc.depth < idx.depth then Exp.Var (VarIdx.Idx idx.dec)
      else Exp.Var (VarIdx.Idx idx)
  | Exp.Abs var typ exp, loc, can => Exp.Abs var typ (exp.subst loc.inc can)
  | Exp.For var typ exp, loc, can => Exp.For var typ (exp.subst loc.inc can)
  | Exp.App fst snd, loc, can => Exp.App (fst.subst loc can) (snd.subst loc can)
  | Exp.TypeMeta, _, _ => Exp.TypeMeta
  | Exp.KindMeta, _, _ => Exp.KindMeta

/-- Body of `Exp::validate_type` applied to an already-computed actual type:
accept exactly when the actual type equals one of the candidates. -/
def validate_with (act : Res Exp) (e : Exp) (typ : List Exp) : Res Unit :=
  Res.bind act fun a =>
    if a ∈ typ then Res.ok ()
    else Res.throw (TypingErr.TypeCompatErr (TypeCompatErr.new e a typ))

mutual

/-- `Exp::calculate_type`.  Every recursive call runs at fuel one lower; the
validation calls are `validate_with` around `calculate_type`, i.e. exactly
`Exp::validate_type` (see `validate_type` below) at that fuel. -/
def calculate_type : Nat → Exp → Ctx → Res Exp
  | 0, _, _ => none
  | fuel + 1, e, ctx =>
    match e with
    | Exp.Var varidx =>
        let var := varidx.get_var
        Res.bind (Res.ofUnknown (ctx.get var)) fun typ =>
        Res.bind (Res.ofUnknown (ctx.subtract var)) fun rest =>
        Res.bind (validate_with (calculate_type fuel typ rest) typ
            [Exp.TypeMeta, Exp.KindMeta]) fun _ =>
        reduce fuel typ ctx
    | Exp.Abs var typ exp =>
        Res.bind (Res.ofRedecl (ctx.extend var typ)) fun ext =>
        Res.bind (calculate_type fuel exp ext) fun bty =>
        let can := Exp.For var typ bty
        Res.bind (validate_with (calculate_type fuel can ctx) can
            [Exp.TypeMeta, Exp.KindMeta]) fun _ =>
        Res.ok can
    | Exp.For var typ exp =>
        Res.bind (Res.ofRedecl (ctx.extend var typ)) fun ext =>
        Res.bind (calculate_type fuel exp ext) fun can =>
        Res.bind (validate_with (calculate_type fuel typ ctx) typ
            [Exp.TypeMeta, Exp.KindMeta]) fun _ =>
        Res.ok can
    | Exp.App fst snd =>
        Res.bind (calculate_type fuel fst ctx) fun fty =>
        Res.bind (calculate_type fuel snd ctx) fun sty =>
        match fty with
        | Exp.For var typ exp =>
            Res.bind (validate_with (calculate_type fuel snd ctx) snd [typ]) fun _ =>
            reduce fuel (exp.subst (Idx.new var) snd) ctx
        | _ => Res.throw (TypingErr.TypeCompatErr (TypeCompatErr.new snd sty []))
    | Exp.TypeMeta => Res.ok Exp.KindMeta
    | Exp.KindMeta => Res.throw (TypingErr.TypeUndefErr (TypeUndefErr.new Exp.KindMeta))

/-- `Exp::reduce_once`: type-check, then one reduction pass. -/
def reduce_once : Nat → Exp → Ctx → Res Exp
  | 0, _, _ => none
  | fuel + 1, e, ctx =>
    Res.bind (calculate_type fuel e ctx) fun _ =>
    match e with
    | Exp.Abs var typ exp =>
        Res.bind (reduce fuel typ ctx) fun t =>
        Res.bind (reduce fuel exp ctx) fun b =>
        Res.ok (Exp.Abs var t b)
    | Exp.For var typ exp =>
        Res.bind (reduce fuel typ ctx) fun t =>
        Res.bind (reduce fuel exp ctx) fun b =>
        Res.ok (Exp.For var t b)
    | Exp.App fst snd =>
        match fst with
        | Exp.Abs var _ exp => Res.ok (exp.subst (Idx.new var) snd)
        | _ =>
            Res.bind (reduce fuel fst ctx) fun f =>
            Res.bind (reduce fuel snd ctx) fun s =>
            Res.ok (Exp.App f s)
    | _ => Res.ok e

/-- `Exp::reduce`: one pass; if it changed anything, exactly one further pass. -/
def reduce : Nat → Exp → Ctx → Res Exp
  | 0, _, _ => none
  | fuel + 1, e, ctx =>
    Res.bind (reduce_once fuel e ctx) fun q =>
    if e = q then Res.ok q else reduce_once fuel q ctx

end

/-- `Exp::validate_type`: compute the actual type, accept iff it is one of
the candidates (this is what the inlined `validate_with` calls above mean). -/
def validate_type (fuel : Nat) (e : Exp) (typ : List Exp) (ctx : Ctx) : Res Unit :=
  validate_with (calculate_type fuel e ctx) e typ

/-! Concrete variables, expressions and contexts used by the claim instances. -/

/-- Variable `x`. -/
def xV : Var := Var.new "x"

/-- Variable `y`. -/
def yV : Var := Var.new "y"

/-- Variable `z`. -/
def zV : Var := Var.new "z"

/-- Variable `w`. -/
def wV : Var := Var.new "w"

/-- Variable `a`. -/
def aV : Var := Var.new "a"

/-- Variable `b`. -/
def bV : Var := Var.new "b"

/-- Variable `m`. -/
def mV : Var := Var.new "m"

/-- Variable `T`. -/
def tV : Var := Var.new "T"

/-- The type variable `T` as an expression. -/
def tT : Exp := Exp.new_var tV

/-- The identity on types, `λx : * . x`. -/
def idStar : Exp := Exp.new_abs xV Exp.get_type_meta (Exp.new_var xV)

/-- `(λx:*.x) ((λx:*.x) ((λx:*.x) w))`: well-typed under `{w : *}`, needs
three beta steps to normalize. -/
def e0 : Exp :=
  Exp.new_app idStar (Exp.new_app idStar (Exp.new_app idStar (Exp.new_var wV)))

/-- Context `{w : *}`. -/
def G1 : Ctx := ⟨[(wV, Exp.TypeMeta)]⟩

/-- `λy:T.((λx:T.λz:T.x) y)`: reducing the inner redex inserts the bound
occurrence of `y` under the binder `z`. -/
def e2c : Exp :=
  Exp.new_abs yV tT
    (Exp.new_app (Exp.new_abs xV tT (Exp.new_abs zV tT (Exp.new_var xV)))
      (Exp.new_var yV))

/-- Context `{T : *, y : T}`. -/
def G2 : Ctx := ⟨[(tV, Exp.TypeMeta), (yV, tT)]⟩

/-- The identity abstraction `λa : * . a`. -/
def idA : Exp := Exp.new_abs aV Exp.get_type_meta (Exp.new_var aV)

/-- The type-level redex `(λa:*.a) T`. -/
def annA : Exp := Exp.new_app idA tT

/-- `λx : ((λa:*.a) T) . x`, whose parameter type is an unreduced redex. -/
def e3 : Exp := Exp.new_abs xV annA (Exp.new_var xV)

/-- Context `{T : *}`. -/
def G3 : Ctx := ⟨[(tV, Exp.TypeMeta)]⟩

/-- Context `{T : *, y : T}` (same bindings as `G2`; kept separate for the C3
instance). -/
def G3b : Ctx := ⟨[(tV, Exp.TypeMeta), (yV, tT)]⟩

/-- `(λx:T.x) y` (claim C9, first example). -/
def e9a : Exp := Exp.new_app (Exp.new_abs xV tT (Exp.new_var xV)) (Exp.new_var yV)

/-- `(λx:T.λz:T.x) a b` (claim C9, second example). -/
def e9b : Exp :=
  Exp.new_app
    (Exp.new_app (Exp.new_abs xV tT (Exp.new_abs zV tT (Exp.new_var xV)))
      (Exp.new_var aV))
    (Exp.new_var bV)

/-- Context `{T : *, y : T, a : T, b : T}`. -/
def G9 : Ctx := ⟨[(tV, Exp.TypeMeta), (yV, tT), (aV, tT), (bV, tT)]⟩

/-- `x Πy:*.((λw:*.w y) m)` built through the smart constructors
(claim C8; mirrors test `test_exp_idx_0001`). -/
def c8_built : Exp :=
  Exp.new_app (Exp.new_var xV)
    (Exp.new_for yV Exp.get_type_meta
      (Exp.new_app
        (Exp.new_abs wV Exp.get_type_meta
          (Exp.new_app (Exp.new_var wV) (Exp.new_var yV)))
        (Exp.new_var mV)))

/-! Helper lemmas about the embedding. -/

/-- Binding fuel exhaustion propagates it. -/
theorem Res.bind_none {α β : Type} (f : α → Res β) : Res.bind none f = none := rfl

/-- Binding an error propagates it (Rust `?` on `Err`). -/
theorem Res.bind_err {α β : Type} (e : TypingErr) (f : α → Res β) :
    Res.bind (some (Except.error e)) f = some (Except.error e) := rfl

/-- Binding a success applies the continuation (Rust `?` on `Ok`). -/
theorem Res.bind_ok {α β : Type} (a : α) (f : α → Res β) :
    Res.bind (some (Except.ok a)) f = f a := rfl

/-- After `insert`, the inserted binding is the one found. -/
theorem Ctx.find_insert (ctx : Ctx) (var : Var) (typ : Exp) :
    (ctx.insert var typ).find var = some typ := by
  simp [Ctx.insert, Ctx.find, findVar]

/-- Filtering a variable out of the backing list makes lookup miss. -/
theorem findVar_filter_self (l : List (Var × Exp)) (var : Var) :
    findVar (l.filter (fun p => decide (p.1 ≠ var))) var = none := by
  induction l with
  | nil => rfl
  | cons hd tl ih =>
      by_cases hv : hd.1 = var
      · simpa [List.filter_cons, hv] using ih
      · simpa [List.filter_cons, hv, findVar] using ih

/-- C5: under every context the sort `*` has type `□` (the SORT rule consults
nothing), and asking for the type of `□` fails with the undefined-type error
carrying `□` itself. -/
theorem sort_rule_types (fuel : Nat) (ctx : Ctx) :
    calculate_type (fuel + 1) Exp.TypeMeta ctx = Res.ok Exp.KindMeta ∧
    calculate_type (fuel + 1) Exp.KindMeta ctx =
      Res.throw (TypingErr.TypeUndefErr (TypeUndefErr.new Exp.KindMeta)) :=
  ⟨rfl, rfl⟩

/-- C8: building `x Πy:*.((λw:*.w y) m)` with the smart constructors resolves
`w` in the λ body to the bound index of depth 0 named `w` and `y` there to the
bound index of depth 1 named `y`, while `x` and `m` stay free occurrences. -/
theorem index_resolves_depths :
    c8_built = Exp.App (Exp.Var (VarIdx.Var xV))
      (Exp.For yV Exp.TypeMeta
        (Exp.App
          (Exp.Abs wV Exp.TypeMeta
            (Exp.App (Exp.Var (VarIdx.Idx ⟨0, wV⟩)) (Exp.Var (VarIdx.Idx ⟨1, yV⟩))))
          (Exp.Var (VarIdx.Var mV)))) := by
  decide

/-- C1: the failing input for the fixpoint/idempotence claim.  Under `{w : *}`
the expression `e0 = (λx:*.x) ((λx:*.x) ((λx:*.x) w))` is well-typed, yet
`reduce` returns `(λx:*.x) w`, which a further `reduce` (and already a further
`reduce_once` pass) turns into `w`: the result is not a beta-normal form and
`reduce (reduce e0) ≠ reduce e0`. -/
theorem reduce_stops_after_two_passes :
    calculate_type 30 e0 G1 = Res.ok Exp.TypeMeta ∧
    reduce 30 e0 G1 = Res.ok (Exp.new_app idStar (Exp.new_var wV)) ∧
    reduce 30 (Exp.new_app idStar (Exp.new_var wV)) G1 = Res.ok (Exp.new_var wV) ∧
    reduce_once 30 (Exp.new_app idStar (Exp.new_var wV)) G1 = Res.ok (Exp.new_var wV) ∧
    Exp.new_app idStar (Exp.new_var wV) ≠ Exp.new_var wV := by
  refine ⟨by decide, by decide, by decide, by decide, by decide⟩

/-- C2: `subst` inserts the replacement verbatim.  Substituting
`N = Var(Idx(0,y))` for `x` in `B = λz:T.Var(Idx(1,x))` puts the copy of `N`
under the binder `z` without adjusting its index, so the occurrence that
referred to the enclosing `y` now refers to `z` (capture); reducing the
well-typed `λy:T.((λx:T.λz:T.x) y)` under `{T:*, y:T}` exhibits exactly this
captured result. -/
theorem subst_inserts_unshifted :
    (Exp.Abs zV tT (Exp.Var (VarIdx.Idx ⟨1, xV⟩))).subst (Idx.new xV)
        (Exp.Var (VarIdx.Idx ⟨0, yV⟩))
      = Exp.Abs zV tT (Exp.Var (VarIdx.Idx ⟨0, yV⟩)) ∧
    reduce 30 e2c G2
      = Res.ok (Exp.Abs yV tT (Exp.Abs zV tT (Exp.Var (VarIdx.Idx ⟨0, yV⟩)))) := by
  refine ⟨by decide, by decide⟩


/-- C3: the failing input for the normalized-types claim.  Under `{T : *}`,
`calculate_type` succeeds on `e3 = λx:((λa:*.a) T).x` and returns
`Πx:((λa:*.a) T).T`, whose parameter type still contains a beta-redex (one
more `reduce_once` pass changes it to `Πx:T.T`); consequently under
`{T:*, y:T}` the application `e3 y` is rejected with a type-incompatibility
error comparing the unreduced accepted type `(λa:*.a) T` with the actual type
`T`, although both sides have the same beta-normal form `T`. -/
theorem calculate_type_returns_unreduced_annotation :
    calculate_type 30 e3 G3 = Res.ok (Exp.For xV annA (Exp.Var (VarIdx.Var tV))) ∧
    reduce_once 30 (Exp.For xV annA (Exp.Var (VarIdx.Var tV))) G3
      = Res.ok (Exp.For xV tT (Exp.Var (VarIdx.Var tV))) ∧
    Exp.For xV annA (Exp.Var (VarIdx.Var tV)) ≠ Exp.For xV tT (Exp.Var (VarIdx.Var tV)) ∧
    calculate_type 30 (Exp.new_app e3 (Exp.new_var yV)) G3b
      = Res.throw (TypingErr.TypeCompatErr (TypeCompatErr.new (Exp.new_var yV) tT [annA])) ∧
    reduce 30 annA G3b = Res.ok tT ∧
    reduce 30 tT G3b = Res.ok tT := by
  refine ⟨by decide, by decide, by decide, by decide, by decide, by decide⟩

/-- Inversion for a successful bind: the first stage succeeded and the
continuation produced the final value. -/
theorem Res.bind_ok_inv {α β : Type} {x : Res α} {f : α → Res β} {b : β}
    (h : Res.bind x f = some (Except.ok b)) :
    ∃ a, x = some (Except.ok a) ∧ f a = some (Except.ok b) := by
  cases x with
  | none => simp [Res.bind] at h
  | some ex =>
      cases ex with
      | error e =>
          rw [Res.bind_err] at h
          exact Except.noConfusion (Option.some.inj h)
      | ok a => exact ⟨a, rfl, h⟩

/-- C10: `reduce` type-checks before reducing.  `reduce` runs `reduce_once`,
whose first action is `calculate_type` on the input; hence any typing error
of the input is returned unchanged by `reduce`, and `reduce` can only succeed
when `calculate_type` succeeds on its input.  (Fuel bookkeeping: `reduce` at
fuel `g + 2` consults `calculate_type` at fuel `g`.) -/
theorem reduce_type_checks_first (g : Nat) (e : Exp) (ctx : Ctx) :
    (∀ err, calculate_type g e ctx = some (Except.error err) →
      reduce (g + 2) e ctx = some (Except.error err)) ∧
    (∀ r, reduce (g + 2) e ctx = some (Except.ok r) →
      ∃ t, calculate_type g e ctx = some (Except.ok t)) := by
  constructor
  · intro err h
    simp only [reduce, reduce_once, h, Res.bind]
  · intro r h
    simp only [reduce] at h
    obtain ⟨q, hq, -⟩ := Res.bind_ok_inv h
    simp only [reduce_once] at hq
    obtain ⟨t, ht, -⟩ := Res.bind_ok_inv hq
    exact ⟨t, ht⟩

/-- A variable occurrence is already a fixpoint of one reduction pass:
`reduce_once` returns it unchanged whenever it returns at all. -/
theorem reduce_once_var_ok (g : Nat) (ctx : Ctx) (vi : VarIdx) (v : Exp)
    (h : reduce_once g (Exp.Var vi) ctx = some (Except.ok v)) : v = Exp.Var vi := by
  cases g with
  | zero => simp [reduce_once] at h
  | succ g =>
      have h1 : reduce_once (g + 1) (Exp.Var vi) ctx
          = Res.bind (calculate_type g (Exp.Var vi) ctx)
              (fun _ => Res.ok (Exp.Var vi)) := rfl
      rw [h1] at h
      obtain ⟨t, -, h2⟩ := Res.bind_ok_inv h
      exact (Except.ok.inj (Option.some.inj h2)).symm

/-- `reduce` returns a variable occurrence unchanged whenever it succeeds. -/
theorem reduce_var_ok (g : Nat) (ctx : Ctx) (vi : VarIdx) (v : Exp)
    (h : reduce g (Exp.Var vi) ctx = some (Except.ok v)) : v = Exp.Var vi := by
  cases g with
  | zero => simp [reduce] at h
  | succ g =>
      simp only [reduce] at h
      obtain ⟨q, hq, h2⟩ := Res.bind_ok_inv h
      have hqv : q = Exp.Var vi := reduce_once_var_ok g ctx vi q hq
      subst hqv
      rw [if_pos rfl] at h2
      exact (Except.ok.inj (Option.some.inj h2)).symm

/-- Reducing `(λx:T.λz:T.x) a` yields `λz:T.a` whenever it succeeds (the
inner redex of claim C9's second example). -/
theorem reduce_e9b_fst_ok (g : Nat) (ctx : Ctx) (v : Exp)
    (h : reduce g (Exp.new_app (Exp.new_abs xV tT (Exp.new_abs zV tT (Exp.new_var xV)))
        (Exp.new_var aV)) ctx = some (Except.ok v)) :
    v = Exp.Abs zV tT (Exp.Var (VarIdx.Var aV)) := by
  cases g with
  | zero => simp [reduce] at h
  | succ g =>
      simp only [reduce] at h
      obtain ⟨q, hq, h2⟩ := Res.bind_ok_inv h
      cases g with
      | zero => simp [reduce_once] at hq
      | succ g =>
          have h1 : reduce_once (g + 1)
              (Exp.new_app (Exp.new_abs xV tT (Exp.new_abs zV tT (Exp.new_var xV)))
                (Exp.new_var aV)) ctx
              = Res.bind (calculate_type g
                  (Exp.new_app (Exp.new_abs xV tT (Exp.new_abs zV tT (Exp.new_var xV)))
                    (Exp.new_var aV)) ctx)
                  (fun _ => Res.ok (Exp.Abs zV tT (Exp.Var (VarIdx.Var aV)))) := rfl
          rw [h1] at hq
          obtain ⟨t, -, hq2⟩ := Res.bind_ok_inv hq
          have hqv : q = Exp.Abs zV tT (Exp.Var (VarIdx.Var aV)) :=
            (Except.ok.inj (Option.some.inj hq2)).symm
          subst hqv
          rw [if_neg (by decide)] at h2
          -- one further pass over `λz:T.a`: reduces its annotation and body,
          -- both of which are variables
          cases g with
          | zero => simp [reduce_once, calculate_type, Res.bind] at h2
          | succ g =>
              have h3 : reduce_once (g + 1 + 1)
                  (Exp.Abs zV tT (Exp.Var (VarIdx.Var aV))) ctx
                  = Res.bind (calculate_type (g + 1)
                      (Exp.Abs zV tT (Exp.Var (VarIdx.Var aV))) ctx) (fun _ =>
                    Res.bind (reduce (g + 1) tT ctx) (fun t1 =>
                    Res.bind (reduce (g + 1) (Exp.Var (VarIdx.Var aV)) ctx) (fun b1 =>
                    Res.ok (Exp.Abs zV t1 b1)))) := rfl
              rw [h3] at h2
              obtain ⟨t0, -, h4⟩ := Res.bind_ok_inv h2
              obtain ⟨t1, ht1, h5⟩ := Res.bind_ok_inv h4
              obtain ⟨b1, hb1, h6⟩ := Res.bind_ok_inv h5
              have et1 : t1 = tT := reduce_var_ok (g + 1) ctx (VarIdx.Var tV) t1 ht1
              have eb1 : b1 = Exp.Var (VarIdx.Var aV) :=
                reduce_var_ok (g + 1) ctx (VarIdx.Var aV) b1 hb1
              subst et1
              subst eb1
              exact (Except.ok.inj (Option.some.inj h6)).symm

/-- C9: for every context, whenever `reduce` of `(λx:T.x) y` succeeds it
returns `y`, and whenever `reduce` of `(λx:T.λz:T.x) a b` succeeds it returns
`a` (the index of `x` crossing two binder depths); under the example context
`{T:*, y:T, a:T, b:T}` both reductions do succeed (see the witness). -/
theorem reduce_subst_examples (f : Nat) (ctx : Ctx) :
    (∀ r, reduce f e9a ctx = some (Except.ok r) → r = Exp.new_var yV) ∧
    (∀ r, reduce f e9b ctx = some (Except.ok r) → r = Exp.new_var aV) := by
  constructor
  · intro r h
    cases f with
    | zero => simp [reduce] at h
    | succ g =>
        simp only [reduce] at h
        obtain ⟨q, hq, h2⟩ := Res.bind_ok_inv h
        cases g with
        | zero => simp [reduce_once] at hq
        | succ g =>
            have h1 : reduce_once (g + 1) e9a ctx
                = Res.bind (calculate_type g e9a ctx)
                    (fun _ => Res.ok (Exp.Var (VarIdx.Var yV))) := rfl
            rw [h1] at hq
            obtain ⟨t, -, hq2⟩ := Res.bind_ok_inv hq
            have hqv : q = Exp.Var (VarIdx.Var yV) :=
              (Except.ok.inj (Option.some.inj hq2)).symm
            subst hqv
            rw [if_neg (by decide)] at h2
            exact reduce_once_var_ok (g + 1) ctx (VarIdx.Var yV) r h2
  · intro r h
    cases f with
    | zero => simp [reduce] at h
    | succ g =>
        simp only [reduce] at h
        obtain ⟨q, hq, h2⟩ := Res.bind_ok_inv h
        cases g with
        | zero => simp [reduce_once] at hq
        | succ g =>
            have h1 : reduce_once (g + 1) e9b ctx
                = Res.bind (calculate_type g e9b ctx) (fun _ =>
                    Res.bind (reduce g
                      (Exp.new_app (Exp.new_abs xV tT (Exp.new_abs zV tT (Exp.new_var xV)))
                        (Exp.new_var aV)) ctx) (fun f1 =>
                    Res.bind (reduce g (Exp.new_var bV) ctx) (fun s1 =>
                    Res.ok (Exp.App f1 s1)))) := rfl
            rw [h1] at hq
            obtain ⟨t, -, hq2⟩ := Res.bind_ok_inv hq
            obtain ⟨f1, hf1, hq3⟩ := Res.bind_ok_inv hq2
            obtain ⟨s1, hs1, hq4⟩ := Res.bind_ok_inv hq3
            have ef1 : f1 = Exp.Abs zV tT (Exp.Var (VarIdx.Var aV)) :=
              reduce_e9b_fst_ok g ctx f1 hf1
            have es1 : s1 = Exp.Var (VarIdx.Var bV) :=
              reduce_var_ok g ctx (VarIdx.Var bV) s1 hs1
            subst ef1
            subst es1
            have hqv : q = Exp.App (Exp.Abs zV tT (Exp.Var (VarIdx.Var aV)))
                (Exp.Var (VarIdx.Var bV)) :=
              (Except.ok.inj (Option.some.inj hq4)).symm
            subst hqv
            rw [if_neg (by decide)] at h2
            -- the final pass beta-substitutes the free `a` for `z`
            cases g with
            | zero => simp [reduce_once, calculate_type, Res.bind] at h2
            | succ g =>
                have h3 : reduce_once (g + 1 + 1)
                    (Exp.App (Exp.Abs zV tT (Exp.Var (VarIdx.Var aV)))
                      (Exp.Var (VarIdx.Var bV))) ctx
                    = Res.bind (calculate_type (g + 1)
                        (Exp.App (Exp.Abs zV tT (Exp.Var (VarIdx.Var aV)))
                          (Exp.Var (VarIdx.Var bV))) ctx)
                        (fun _ => Res.ok (Exp.Var (VarIdx.Var aV))) := rfl
                rw [h3] at h2
                obtain ⟨t2, -, h4⟩ := Res.bind_ok_inv h2
                exact (Except.ok.inj (Option.some.inj h4)).symm

/-- C4: shape of the APPL rule.  Given that both operands type-check at the
same fuel, if the function side's computed type is a `For x A B` then the
argument is validated against exactly `[A]` — success yields the reduced
substitution `B[x := N]`, failure yields the type-incompatibility error
citing `A` — and if the computed type is not a `For` node the application
fails with a type-incompatibility error whose accepted set is empty. -/
theorem appl_rule_shape (g : Nat) (ctx : Ctx) (M N sty : Exp)
    (hN : calculate_type g N ctx = Res.ok sty) :
    (∀ x A B, calculate_type g M ctx = Res.ok (Exp.For x A B) →
      (sty = A → calculate_type (g + 1) (Exp.App M N) ctx
          = reduce g (B.subst (Idx.new x) N) ctx) ∧
      (sty ≠ A → calculate_type (g + 1) (Exp.App M N) ctx
          = Res.throw (TypingErr.TypeCompatErr (TypeCompatErr.new N sty [A])))) ∧
    (∀ fty, calculate_type g M ctx = Res.ok fty → (∀ x A B, fty ≠ Exp.For x A B) →
      calculate_type (g + 1) (Exp.App M N) ctx
        = Res.throw (TypingErr.TypeCompatErr (TypeCompatErr.new N sty []))) := by
  constructor
  · intro x A B hM
    constructor
    · intro hsty
      subst hsty
      simp only [calculate_type, hM, hN, Res.ok, Res.bind, validate_with]
      rw [if_pos (List.mem_singleton.mpr rfl)]
    · intro hsty
      simp only [calculate_type, hM, hN, Res.ok, Res.bind, validate_with]
      rw [if_neg (by simpa [List.mem_singleton] using hsty)]
      rfl
  · intro fty hM hnot
    simp only [calculate_type, hM, hN, Res.ok, Res.bind]

/-- C6: `put` re-binding the structurally identical type succeeds (hence two
`put`s of the same binding in a row both succeed), `put` with a different
type fails with the redeclaration error carrying the old and the new type,
and `get` returns the bound type when present and the unknown-variable error
when absent. -/
theorem ctx_put_get_behavior (G : Ctx) (x : Var) (A B : Exp) :
    (G.get x = Except.ok A → G.put x A = Except.ok (G.insert x A)) ∧
    (G.get x = Except.ok A → A ≠ B → G.put x B = Except.error (TypeRedeclErr.new x A B)) ∧
    (∀ G1, G.put x A = Except.ok G1 → G1.put x A = Except.ok (G1.insert x A)) ∧
    (G.find x = some A → G.get x = Except.ok A) ∧
    (G.find x = none → G.get x = Except.error (TypeUnknownErr.new x)) := by
  refine ⟨?_, ?_, ?_, ?_, ?_⟩
  · intro h
    cases hf : G.find x with
    | none => simp [Ctx.get, hf] at h
    | some t =>
        have ht : t = A := by
          have h2 : (Except.ok t : Except TypeUnknownErr Exp) = Except.ok A := by
            rw [Ctx.get, hf] at h
            exact h
          exact Except.ok.inj h2
        subst ht
        simp [Ctx.put, hf]
  · intro h hAB
    cases hf : G.find x with
    | none => simp [Ctx.get, hf] at h
    | some t =>
        have ht : t = A := by
          have h2 : (Except.ok t : Except TypeUnknownErr Exp) = Except.ok A := by
            rw [Ctx.get, hf] at h
            exact h
          exact Except.ok.inj h2
        subst ht
        simp [Ctx.put, hf, hAB]
  · intro G1 h
    cases hf : G.find x with
    | none =>
        simp only [Ctx.put, hf] at h
        have hG1 : G.insert x A = G1 := Except.ok.inj h
        subst hG1
        simp [Ctx.put, Ctx.find_insert]
    | some t =>
        simp only [Ctx.put, hf] at h
        by_cases htA : t = A
        · rw [if_pos htA] at h
          have hG1 : G.insert x A = G1 := Except.ok.inj h
          subst hG1
          simp [Ctx.put, Ctx.find_insert]
        · rw [if_neg htA] at h
          exact Except.noConfusion h
  · intro hf
    simp [Ctx.get, hf]
  · intro hf
    simp [Ctx.get, hf]

/-- C7: `extend` and `remove` are persistent.  When `x` is absent, `extend`
returns a context that carries the new binding while the receiver still
lacks `x`; when `x` is bound to a different type, `extend` propagates the
redeclaration error; `remove` returns a context in which `get x` fails while
the receiver keeps its binding; `remove` of an absent variable fails with
the unknown-variable error. -/
theorem ctx_extend_remove_persistent (G : Ctx) (x : Var) (A B : Exp) :
    (G.find x = none →
      G.extend x A = Except.ok (G.insert x A) ∧
      (G.insert x A).get x = Except.ok A ∧
      G.find x = none) ∧
    (G.find x = some B → B ≠ A → G.extend x A = Except.error (TypeRedeclErr.new x B A)) ∧
    (G.get x = Except.ok A →
      (∀ G1, G.remove x = Except.ok G1 → G1.get x = Except.error (TypeUnknownErr.new x)) ∧
      G.get x = Except.ok A) ∧
    (G.find x = none → G.remove x = Except.error (TypeUnknownErr.new x)) := by
  refine ⟨?_, ?_, ?_, ?_⟩
  · intro hf
    refine ⟨?_, ?_, hf⟩
    · simp [Ctx.extend, Ctx.put, hf]
    · simp [Ctx.get, Ctx.find_insert]
  · intro hf hBA
    simp [Ctx.extend, Ctx.put, hf, hBA]
  · intro h
    refine ⟨?_, h⟩
    intro G1 hrem
    cases hf : G.find x with
    | none => simp [Ctx.get, hf] at h
    | some t =>
        simp only [Ctx.remove, hf] at hrem
        have hG1 : Ctx.mk (G.map.filter (fun p => decide (p.1 ≠ x))) = G1 :=
          Except.ok.inj hrem
        subst hG1
        have hnone : findVar (List.filter (fun p => !decide (p.1 = x)) G.map) x = none := by
          simpa using findVar_filter_self G.map x
        simp [Ctx.get, Ctx.find, hnone]
  · intro hf
    simp [Ctx.remove, hf]

/-- Witness for C4: the APPL shapes at concrete inputs.  Under `{T : *}`,
applying `λa:*.a` (type `Πa:*.*`) to `T` (type `*`) takes the success branch;
applying it to `*` (type `□ ≠ *`) fails citing `[*]`; applying `T` (whose
type `*` is not a `For` node) fails with an empty accepted set. -/
theorem appl_rule_shape_witness :
    calculate_type 21 (Exp.App idA tT) G3
        = reduce 20 (Exp.TypeMeta.subst (Idx.new aV) tT) G3 ∧
    calculate_type 21 (Exp.App idA Exp.TypeMeta) G3
        = Res.throw (TypingErr.TypeCompatErr
            (TypeCompatErr.new Exp.TypeMeta Exp.KindMeta [Exp.TypeMeta])) ∧
    calculate_type 21 (Exp.App tT tT) G3
        = Res.throw (TypingErr.TypeCompatErr (TypeCompatErr.new tT Exp.TypeMeta [])) := by
  refine ⟨?_, ?_, ?_⟩
  · exact ((appl_rule_shape 20 G3 idA tT Exp.TypeMeta (by decide)).1
      aV Exp.TypeMeta Exp.TypeMeta (by decide)).1 rfl
  · exact ((appl_rule_shape 20 G3 idA Exp.TypeMeta Exp.KindMeta (by decide)).1
      aV Exp.TypeMeta Exp.TypeMeta (by decide)).2 (by decide)
  · exact (appl_rule_shape 20 G3 tT tT Exp.TypeMeta (by decide)).2 Exp.TypeMeta
      (by decide) (fun x A B h => Exp.noConfusion h)

/-- Witness for C6: the context behaviors at concrete inputs, via the theorem.
`G2 = {T:*, y:T}`: re-`put` of the identical binding succeeds (twice), `put`
of a different type fails carrying both types, `get` hits and misses. -/
theorem ctx_put_get_behavior_witness :
    G2.put tV Exp.TypeMeta = Except.ok (G2.insert tV Exp.TypeMeta) ∧
    G2.put tV tT = Except.error (TypeRedeclErr.new tV Exp.TypeMeta tT) ∧
    (G2.insert tV Exp.TypeMeta).put tV Exp.TypeMeta
      = Except.ok ((G2.insert tV Exp.TypeMeta).insert tV Exp.TypeMeta) ∧
    G2.get tV = Except.ok Exp.TypeMeta ∧
    Ctx.new.get tV = Except.error (TypeUnknownErr.new tV) := by
  refine ⟨?_, ?_, ?_, ?_, ?_⟩
  · exact (ctx_put_get_behavior G2 tV Exp.TypeMeta tT).1 (by decide)
  · exact (ctx_put_get_behavior G2 tV Exp.TypeMeta tT).2.1 (by decide) (by decide)
  · exact (ctx_put_get_behavior G2 tV Exp.TypeMeta tT).2.2.1
      (G2.insert tV Exp.TypeMeta) (by decide)
  · exact (ctx_put_get_behavior G2 tV Exp.TypeMeta tT).2.2.2.1 (by decide)
  · exact (ctx_put_get_behavior Ctx.new tV Exp.TypeMeta tT).2.2.2.2 (by decide)

/-- Witness for C7: persistence of `extend`/`remove` at concrete inputs, via
the theorem.  Extending `{T:*}` with the absent `y` yields a context binding
`y`; extending `G2` at `T` with a different type fails; removing `T` from
`G2` yields a context where `T` is unknown; removing an absent variable
fails. -/
theorem ctx_extend_remove_persistent_witness :
    G3.extend yV tT = Except.ok (G3.insert yV tT) ∧
    (G3.insert yV tT).get yV = Except.ok tT ∧
    G2.extend tV tT = Except.error (TypeRedeclErr.new tV Exp.TypeMeta tT) ∧
    (Ctx.mk [(yV, tT)]).get tV = Except.error (TypeUnknownErr.new tV) ∧
    G3.remove yV = Except.error (TypeUnknownErr.new yV) := by
  refine ⟨?_, ?_, ?_, ?_, ?_⟩
  · exact ((ctx_extend_remove_persistent G3 yV tT Exp.TypeMeta).1 (by decide)).1
  · exact ((ctx_extend_remove_persistent G3 yV tT Exp.TypeMeta).1 (by decide)).2.1
  · exact (ctx_extend_remove_persistent G2 tV tT Exp.TypeMeta).2.1 (by decide) (by decide)
  · exact ((ctx_extend_remove_persistent G2 tV Exp.TypeMeta tT).2.2.1 (by decide)).1
      (Ctx.mk [(yV, tT)]) (by decide)
  · exact (ctx_extend_remove_persistent G3 yV tT Exp.TypeMeta).2.2.2 (by decide)

/-- Witness for C9: at fuel 30 under `{T:*, y:T, a:T, b:T}` both example
reductions succeed, and the theorem pins their results to `y` and `a`. -/
theorem reduce_subst_examples_witness :
    reduce 30 e9a G9 = some (Except.ok (Exp.new_var yV)) ∧
    Exp.new_var yV = Exp.new_var yV ∧
    reduce 30 e9b G9 = some (Except.ok (Exp.new_var aV)) ∧
    Exp.new_var aV = Exp.new_var aV := by
  have h1 : reduce 30 e9a G9 = some (Except.ok (Exp.new_var yV)) := by decide
  have h2 : reduce 30 e9b G9 = some (Except.ok (Exp.new_var aV)) := by decide
  exact ⟨h1, (reduce_subst_examples 30 G9).1 (Exp.new_var yV) h1,
    h2, (reduce_subst_examples 30 G9).2 (Exp.new_var aV) h2⟩

/-- Witness for C10: asking `reduce` to normalize `□` (whose type is
undefined) returns exactly the typing error of `calculate_type`. -/
theorem reduce_type_checks_first_witness :
    reduce 3 Exp.KindMeta Ctx.new
      = some (Except.error (TypingErr.TypeUndefErr (TypeUndefErr.new Exp.KindMeta))) :=
  (reduce_type_checks_first 1 Exp.KindMeta Ctx.new).1
    (TypingErr.TypeUndefErr (TypeUndefErr.new Exp.KindMeta)) (by decide)
